import Mathlib

/-!
Verification of the VOICE-CMD core: a shallow embedding of the security
module (`backend/utils/security.js`), the intent parser and file operations
(`backend/utils/fileOps.js` / `commandParser`), and the command executor and
shell runner (`commandUtils.js`), together with proofs about the embedded
definitions.

Strings are modelled as `List Char`.  JavaScript's `String.prototype.trim`,
`toLowerCase` (ASCII range), `includes`, `split`, `startsWith` and `endsWith`
are modelled by the corresponding list functions below.  JavaScript regular
expressions are modelled by a small regular-expression datatype with a
Brzozowski-derivative matcher; `RegExp.prototype.test` (unanchored search) is
`rtest`.
-/

namespace VoiceCmd

abbrev Str := List Char

/-- Convert a Lean string literal to the `List Char` representation. -/
def str (s : String) : Str := s.toList

/-- The whitespace characters recognised by the model (the ASCII part of the
JavaScript `\s` class and of `String.prototype.trim`). -/
def isWs (c : Char) : Bool :=
  c.toNat = 32 || c.toNat = 9 || c.toNat = 10 || c.toNat = 13 || c.toNat = 11 || c.toNat = 12

/-- ASCII lower-casing, as applied by `toLowerCase` on the command strings the
repository manipulates (they are ASCII). -/
def toLowerStr (s : Str) : Str := s.map Char.toLower

/-- `String.prototype.trim`: drop whitespace from both ends. -/
def trim (s : Str) : Str := ((s.dropWhile isWs).reverse.dropWhile isWs).reverse

/-- `String.prototype.includes`: substring containment. -/
def containsSub (needle : Str) : Str → Bool
  | [] => needle.isEmpty
  | c :: rest => needle.isPrefixOf (c :: rest) || containsSub needle rest

theorem containsSub_iff (n h : Str) : containsSub n h = true ↔ n <:+: h := by
  induction h with
  | nil =>
    simp [containsSub, List.isEmpty_iff, List.infix_nil]
  | cons c rest ih =>
    simp only [containsSub, Bool.or_eq_true, List.isPrefixOf_iff_prefix, ih]
    constructor
    · rintro (hp | hi)
      · exact hp.isInfix
      · exact hi.trans ((List.suffix_cons c rest).isInfix)
    · rintro ⟨s, t, he⟩
      match s with
      | [] => exact Or.inl ⟨t, by simpa using he⟩
      | x :: s' =>
        right
        exact ⟨s', t, by simpa using congrArg List.tail he⟩

theorem infix_append_left {n a : Str} (b : Str) (h : n <:+: a) : n <:+: a ++ b := by
  obtain ⟨u, v, rfl⟩ := h
  exact ⟨u, v ++ b, by simp⟩

theorem infix_append_right {n b : Str} (a : Str) (h : n <:+: b) : n <:+: a ++ b := by
  obtain ⟨u, v, rfl⟩ := h
  exact ⟨a ++ u, v, by simp⟩

/-- Whether a string is nonempty with a non-whitespace first character. -/
def edgeOk : Str → Bool
  | [] => false
  | c :: _ => !isWs c

theorem infix_dropWhile_of_edgeOk (n s : Str) (h : n <:+: s) (he : edgeOk n = true) :
    n <:+: s.dropWhile isWs := by
  obtain ⟨u, v, rfl⟩ := h
  induction u with
  | nil =>
    match n, he with
    | c :: n', he =>
      simp only [edgeOk, Bool.not_eq_true'] at he
      simpa [List.dropWhile_cons, he] using ⟨([] : Str), v, rfl⟩
  | cons x u' ih =>
    by_cases hx : isWs x
    · simpa [List.dropWhile_cons, hx] using ih
    · exact ⟨x :: u', v, by simp [List.dropWhile_cons, hx]⟩

theorem infix_trim (n s : Str) (h : n <:+: s) (h1 : edgeOk n = true)
    (h2 : edgeOk n.reverse = true) : n <:+: trim s := by
  have step1 : n <:+: s.dropWhile isWs := infix_dropWhile_of_edgeOk n s h h1
  have step2 : n.reverse <:+: (s.dropWhile isWs).reverse :=
    List.reverse_infix.mpr step1
  have step3 : n.reverse <:+: (s.dropWhile isWs).reverse.dropWhile isWs :=
    infix_dropWhile_of_edgeOk n.reverse _ step2 h2
  have := List.reverse_infix.mpr step3
  simpa [trim] using this

theorem isWs_toLower (c : Char) : isWs c.toLower = isWs c := by
  simp only [Char.toLower]
  split
  · next hrange =>
    have hvalid : (c.toNat + 32).isValidChar := by
      left
      omega
    have htn : (Char.ofNat (c.toNat + 32)).toNat = c.toNat + 32 := by
      rw [Char.ofNat, dif_pos hvalid]
      rfl
    have hl : isWs (Char.ofNat (c.toNat + 32)) = false := by
      simp only [isWs, htn, Bool.or_eq_false_iff, decide_eq_false_iff_not]
      omega
    have hr : isWs c = false := by
      simp only [isWs, Bool.or_eq_false_iff, decide_eq_false_iff_not]
      omega
    rw [hl, hr]
  · rfl

theorem dropWhile_isWs_toLower (s : Str) :
    (toLowerStr s).dropWhile isWs = toLowerStr (s.dropWhile isWs) := by
  induction s with
  | nil => rfl
  | cons c t ih =>
    by_cases hc : isWs c
    · simp [toLowerStr, List.dropWhile_cons, isWs_toLower, hc] at ih ⊢
      simpa [toLowerStr] using ih
    · simp [toLowerStr, List.dropWhile_cons, isWs_toLower, hc]

theorem trim_toLower (s : Str) : trim (toLowerStr s) = toLowerStr (trim s) := by
  simp only [trim, dropWhile_isWs_toLower]
  rw [show (toLowerStr (s.dropWhile isWs)).reverse = toLowerStr (s.dropWhile isWs).reverse from
    by simp [toLowerStr]]
  rw [dropWhile_isWs_toLower]
  simp [toLowerStr]

/-!  A small regular-expression engine (Brzozowski derivatives), enough for
the regex literals that appear in the repository.  `Rex.dot` is the JS `.`
(any character except newline), `Rex.nws` is `\S`, `Rex.ws` is `\s`,
`Rex.digit` is `[0-9]`. -/

inductive Rex where
  | nul
  | eps
  | dot
  | nws
  | ws
  | digit
  | chr (c : Char)
  | alt (a b : Rex)
  | cat (a b : Rex)
  | star (a : Rex)
deriving DecidableEq

def Rex.nullable : Rex → Bool
  | .nul => false
  | .eps => true
  | .dot => false
  | .nws => false
  | .ws => false
  | .digit => false
  | .chr _ => false
  | .alt a b => a.nullable || b.nullable
  | .cat a b => a.nullable && b.nullable
  | .star _ => true

/-- Smart alternation: prune the empty language. -/
def Rex.altS : Rex → Rex → Rex
  | .nul, r => r
  | r, .nul => r
  | r, s => .alt r s

/-- Smart concatenation: prune the empty language and the empty word. -/
def Rex.catS : Rex → Rex → Rex
  | .nul, _ => .nul
  | _, .nul => .nul
  | .eps, r => r
  | r, .eps => r
  | r, s => .cat r s

def Rex.onec (ok : Bool) : Rex := if ok then .eps else .nul

def Rex.deriv : Rex → Char → Rex
  | .nul, _ => .nul
  | .eps, _ => .nul
  | .dot, c => onec (c ≠ '\n')
  | .nws, c => onec (!isWs c)
  | .ws, c => onec (isWs c)
  | .digit, c => onec (48 ≤ c.toNat && c.toNat ≤ 57)
  | .chr a, c => onec (c = a)
  | .alt a b, c => altS (a.deriv c) (b.deriv c)
  | .cat a b, c => if a.nullable then altS (catS (a.deriv c) b) (b.deriv c) else catS (a.deriv c) b
  | .star a, c => catS (a.deriv c) (.star a)

/-- Whole-string match. -/
def Rex.rmatch (r : Rex) (s : Str) : Bool := (s.foldl Rex.deriv r).nullable

/-- Any single character, newline included. -/
def Rex.anyChar : Rex := .alt .dot (.chr '\n')

/-- `RegExp.prototype.test`: unanchored search for a match anywhere. -/
def rtest (r : Rex) (s : Str) : Bool :=
  Rex.rmatch (.cat (.star Rex.anyChar) (.cat r (.star Rex.anyChar))) s

/-- Regex from a literal string. -/
def rstr (s : Str) : Rex := s.foldr (fun c r => .cat (.chr c) r) .eps

/-- One or more repetitions. -/
def rplus (r : Rex) : Rex := .cat r (.star r)

/-- Zero or one repetition. -/
def ropt (r : Rex) : Rex := .alt .eps r

/-- `\s+` -/
def rwsP : Rex := rplus .ws

/-- Chain a list of regexes in sequence. -/
def rseq (rs : List Rex) : Rex := rs.foldr .cat .eps

/-!  ## Security module (`backend/utils/security.js`)

`allowedCommands`, `blockedCommands` and `blockedPatternList` transcribe the
three policy tables.  `isCommandSafe` follows the source control flow: invalid
input, then the literal denylist (substring of the trimmed, lower-cased
command against the lower-cased literal), then the regex denylist (tested
against the original, untrimmed command — the source regexes carry no `i`
flag), then the allowlist on the first space-delimited token, then the
chaining and substitution checks. -/

def allowedCommands : List Str :=
  [str "mkdir", str "touch", str "ls", str "cp", str "mv", str "cat", str "head",
   str "tail", str "grep", str "find",
   str "chmod", str "chown", str "tar", str "zip", str "unzip", str "gzip", str "gunzip",
   str "nano", str "vim", str "vi", str "emacs",
   str "pwd", str "whoami", str "uname", str "df", str "du", str "free", str "uptime",
   str "ps", str "top", str "htop",
   str "ping", str "curl", str "wget", str "ssh", str "scp",
   str "git", str "npm", str "node", str "python", str "python3", str "gcc",
   str "g++", str "make",
   str "echo", str "date", str "cal", str "which", str "whereis", str "man",
   str "info", str "help"]

def blockedCommands : List Str :=
  [str "rm -rf", str "rm -r", str "rm -f", str "shutdown", str "reboot", str "halt",
   str "poweroff",
   str "init 0", str "init 6", str "systemctl poweroff", str "systemctl reboot",
   str "chmod 777 /", str "chmod 777 /etc", str "chmod 777 /root", str "chmod 777 /home",
   str "chown root:", str "chown root /", str "chown root /etc",
   str "kill -9 1", str "killall", str "pkill -f systemd", str "killall systemd",
   str "nmap", str "nmap -sS", str "nmap -O", str "netcat", str "nc -l", str "nc -e",
   str "dd if=/dev/zero", str "dd of=/dev/sda", str "mkfs", str "fdisk", str "parted",
   str "format", str "wipefs", str "badblocks",
   str "sudo su", str "sudo -i", str "su -", str "su root", str "passwd root",
   str "> /dev/sda", str "> /etc/passwd", str "> /etc/shadow", str ">> /etc/passwd",
   str "bash -c", str "sh -c", str "eval", str "exec", str "source /dev/stdin"]

/-- `/rm\s+-rf?\s+\//` -/
def pat1 : Rex := rseq [rstr (str "rm"), rwsP, rstr (str "-r"), ropt (.chr 'f'), rwsP, .chr '/']

/-- `/chmod\s+777\s+\//` -/
def pat2 : Rex := rseq [rstr (str "chmod"), rwsP, rstr (str "777"), rwsP, .chr '/']

/-- `/chown\s+root\s+\//` -/
def pat3 : Rex := rseq [rstr (str "chown"), rwsP, rstr (str "root"), rwsP, .chr '/']

/-- `/dd\s+if=.*of=\/dev/` -/
def pat4 : Rex := rseq [rstr (str "dd"), rwsP, rstr (str "if="), .star .dot, rstr (str "of=/dev")]

/-- `/sudo\s+(su|passwd|visudo)/` -/
def pat5 : Rex :=
  rseq [rstr (str "sudo"), rwsP,
        .alt (rstr (str "su")) (.alt (rstr (str "passwd")) (rstr (str "visudo")))]

/-- `/kill\s+-9\s+[0-9]+/` -/
def pat6 : Rex := rseq [rstr (str "kill"), rwsP, rstr (str "-9"), rwsP, rplus .digit]

/-- `/>.*\/etc\/(passwd|shadow|hosts)/` -/
def pat7 : Rex :=
  rseq [.chr '>', .star .dot, rstr (str "/etc/"),
        .alt (rstr (str "passwd")) (.alt (rstr (str "shadow")) (rstr (str "hosts")))]

/-- `/bash\s+-c\s+['"]/` -/
def pat8 : Rex :=
  rseq [rstr (str "bash"), rwsP, rstr (str "-c"), rwsP, .alt (.chr '\'') (.chr '"')]

/-- `/eval\s+/` -/
def pat9 : Rex := rseq [rstr (str "eval"), rwsP]

/-- `/exec\s+/` -/
def pat10 : Rex := rseq [rstr (str "exec"), rwsP]

/-- `/source\s+\/dev\/stdin/` -/
def pat11 : Rex := rseq [rstr (str "source"), rwsP, rstr (str "/dev/stdin")]

/-- The `blockedPatterns` array, each regex carrying its printed source text
(used by the `reason` string interpolation). -/
def blockedPatternList : List (Str × Rex) :=
  [(str "/rm\\s+-rf?\\s+\\//", pat1),
   (str "/chmod\\s+777\\s+\\//", pat2),
   (str "/chown\\s+root\\s+\\//", pat3),
   (str "/dd\\s+if=.*of=\\/dev/", pat4),
   (str "/sudo\\s+(su|passwd|visudo)/", pat5),
   (str "/kill\\s+-9\\s+[0-9]+/", pat6),
   (str "/>.*\\/etc\\/(passwd|shadow|hosts)/", pat7),
   (str "/bash\\s+-c\\s+['\"]/", pat8),
   (str "/eval\\s+/", pat9),
   (str "/exec\\s+/", pat10),
   (str "/source\\s+\\/dev\\/stdin/", pat11)]

structure SafetyResult where
  safe : Bool
  reason : Str
  blocked : Bool
  pattern : Option Str := none
  suggestion : Option Str := none
deriving DecidableEq

def invalidResult : SafetyResult :=
  { safe := false, reason := str "Invalid command format", blocked := true }

def literalBlockResult (b : Str) : SafetyResult :=
  { safe := false,
    reason := str "Command contains blocked pattern: \"" ++ b ++ str "\"",
    blocked := true, pattern := some b }

def patternBlockResult (p : Str) : SafetyResult :=
  { safe := false,
    reason := str "Command matches blocked pattern: " ++ p,
    blocked := true, pattern := some p }

def suggestionText : Str :=
  str "Try one of these: " ++ List.intercalate (str ", ") (allowedCommands.take 5) ++ str "..."

def allowlistBlockResult (base : Str) : SafetyResult :=
  { safe := false,
    reason := str "Command \"" ++ base ++ str "\" not in allowlist",
    blocked := true, suggestion := some suggestionText }

def chainingBlockResult : SafetyResult :=
  { safe := false, reason := str "Command chaining not allowed for security", blocked := true }

def substitutionBlockResult : SafetyResult :=
  { safe := false, reason := str "Command substitution not allowed for security", blocked := true }

def safeResult : SafetyResult :=
  { safe := true, reason := str "Command is safe", blocked := false }

/-- `command.trim().toLowerCase()` -/
def trimmedLower (s : Str) : Str := toLowerStr (trim s)

/-- `trimmedCommand.split(' ')[0]` -/
def baseCommand (s : Str) : Str := (trimmedLower s).takeWhile (fun c => c ≠ ' ')

/-- The chaining check of `isCommandSafe`. -/
def chainingHit (t : Str) : Bool :=
  containsSub (str "&&") t || containsSub (str "||") t || containsSub (str ";") t

/-- The substitution check of `isCommandSafe`. -/
def substitutionHit (t : Str) : Bool :=
  containsSub (str "$(") t || containsSub (str "`") t

/-- The body of `isCommandSafe` for an actual string argument. -/
def isCommandSafeStr (command : Str) : SafetyResult :=
  if command = [] then invalidResult
  else
    match blockedCommands.find? (fun b => containsSub (toLowerStr b) (trimmedLower command)) with
    | some b => literalBlockResult b
    | none =>
      match blockedPatternList.find? (fun p => rtest p.2 command) with
      | some p => patternBlockResult p.1
      | none =>
        if baseCommand command ∈ allowedCommands then
          if chainingHit (trimmedLower command) then chainingBlockResult
          else if substitutionHit (trimmedLower command) then substitutionBlockResult
          else safeResult
        else allowlistBlockResult (baseCommand command)

/-- `isCommandSafe` from `security.js`.  `none` models non-string/null input;
`some []` is the empty string, which the source's falsiness test also routes
to the invalid branch. -/
def isCommandSafe : Option Str → SafetyResult
  | none => invalidResult
  | some command => isCommandSafeStr command

/-- The literal-denylist condition, exactly as the source's first loop tests it. -/
def literalHit (s : Str) : Bool :=
  blockedCommands.any (fun b => containsSub (toLowerStr b) (trimmedLower s))

/-- The regex-denylist condition, exactly as the source's second loop tests it. -/
def patternHit (s : Str) : Bool :=
  blockedPatternList.any (fun p => rtest p.2 s)

/-!  ## Paths

Absolute paths are modelled as lists of segments.  `os.homedir()` is fixed at
process start; the model pins it to `/home/user`.  `PROJECT_ROOT` and the
`FileOperations` default working directory are both
`path.join(os.homedir(), 'Desktop', 'VOICE-CMD')`. -/

def homedirSegs : List Str := [str "home", str "user"]

def projectRootSegs : List Str := homedirSegs ++ [str "Desktop", str "VOICE-CMD"]

/-- Split a path string on `/`. -/
def splitSlash : Str → List Str
  | [] => [[]]
  | c :: rest =>
    match splitSlash rest with
    | [] => [[c]]
    | h :: t => if c = '/' then [] :: h :: t else (c :: h) :: t

/-- Process one path segment (the normalisation step of `path.resolve`). -/
def applySeg (acc : List Str) (seg : Str) : List Str :=
  if seg = [] || seg = str "." then acc
  else if seg = str ".." then acc.dropLast
  else acc ++ [seg]

/-- `path.resolve(base, p)` where `base` is an absolute, already-normalised
path: an absolute `p` replaces the base, a relative one is appended, then
`.`/`..`/empty segments are normalised away. -/
def resolveSegs (base : List Str) (p : Str) : List Str :=
  (splitSlash p).foldl applySeg (if p.head? = some '/' then [] else base)

/-- Render an absolute segment path back to a string (`[] ↦ "/"` aside, every
path of interest here is nonempty). -/
def segsToStr (p : List Str) : Str := (p.map (fun s => '/' :: s)).flatten

structure PathSafetyResult where
  safe : Bool
  reason : Str
  blocked : Bool
  resolvedPath : Option Str := none
deriving DecidableEq

/-- `isPathSafe` from `security.js`: resolve against `PROJECT_ROOT`, then
compare with `resolvedPath.startsWith(PROJECT_ROOT)` — a *string* prefix
test on the rendered paths, exactly as the source does. -/
def isPathSafe : Option Str → PathSafetyResult
  | none => { safe := false, reason := str "Invalid path format", blocked := true }
  | some userPath =>
    if userPath = [] then
      { safe := false, reason := str "Invalid path format", blocked := true }
    else
      let resolvedPath := segsToStr (resolveSegs projectRootSegs userPath)
      if (segsToStr projectRootSegs).isPrefixOf resolvedPath then
        { safe := true, reason := str "Path is within project boundaries",
          blocked := false, resolvedPath := some resolvedPath }
      else
        { safe := false,
          reason := str "Path \"" ++ userPath ++ str "\" is outside project directory",
          blocked := true, resolvedPath := some resolvedPath }

/-!  ## File operations (`backend/utils/fileOps.js`)

The filesystem is modelled as an association list from absolute segment
paths to entry kinds.  `moveFile` follows the source line by line: resolve
the source path, check existence and kind, compute the destination (a
trailing separator keeps the original file name), check the destination does
not exist, `mkdir -p` the destination's parent (errors swallowed), then
rename.  A rename failure (destination parent not a directory) is caught by
the source's outer handler and becomes an error result; the OS error text is
abstracted. -/

inductive FKind where
  | file
  | dir
deriving DecidableEq

abbrev FS := List (List Str × FKind)

def fsLookup (fs : FS) (p : List Str) : Option FKind :=
  (fs.find? (fun e => e.1 = p)).map (fun e => e.2)

def fsExists (fs : FS) (p : List Str) : Bool := (fsLookup fs p).isSome

def isDirAt (fs : FS) (p : List Str) : Bool := fsLookup fs p = some FKind.dir

/-- `fs.mkdir(d, { recursive: true })`: create the missing ancestors of `d`;
if some ancestor already exists as a file the call throws (and `moveFile`
swallows the error), leaving the filesystem unchanged. -/
def fsMkdirRec (fs : FS) (d : List Str) : FS :=
  if d.inits.any (fun q => fsLookup fs q = some FKind.file) then fs
  else fs ++ ((d.inits.filter (fun q => !q.isEmpty && (fsLookup fs q).isNone)).map
    (fun q => (q, FKind.dir)))

/-- Whether `fs.rename` onto `dst` can succeed: the parent of `dst` exists as
a directory (the filesystem root always does). -/
def renameOk (fs : FS) (dst : List Str) : Bool :=
  dst.dropLast.isEmpty || isDirAt fs dst.dropLast

def fsRename (fs : FS) (src dst : List Str) (k : FKind) : FS :=
  (fs.filter (fun e => e.1 ≠ src)) ++ [(dst, k)]

structure FileResult where
  action : Str
  result : Str
  success : Bool
deriving DecidableEq

/-- The working directory of `FileOperations` as constructed by the executor
(`new FileOperations(WORKING_DIR)`). -/
def workingDirSegs : List Str := projectRootSegs

/-- `FileOperations.moveFile(sourceFilename, destPath)`, returning the new
filesystem and the result object. -/
def moveFile (fs : FS) (sourceFilename destPath : Str) : FS × FileResult :=
  let sourceFilePath := resolveSegs workingDirSegs sourceFilename
  if !fsExists fs sourceFilePath then
    (fs, { action := str "Move File",
           result := str "Source file '" ++ sourceFilename ++ str "' not found ❌",
           success := false })
  else if isDirAt fs sourceFilePath then
    (fs, { action := str "Move File",
           result := str "'" ++ sourceFilename ++ str "' is a directory, not a file ❌",
           success := false })
  else
    let destFilePath :=
      if destPath.getLast? = some '/' || destPath.getLast? = some '\\' then
        resolveSegs (resolveSegs workingDirSegs destPath) sourceFilename
      else
        resolveSegs workingDirSegs destPath
    if fsExists fs destFilePath then
      (fs, { action := str "Move File",
             result := str "Destination '" ++ destPath ++ str "' already exists ❌",
             success := false })
    else
      let fs1 := fsMkdirRec fs destFilePath.dropLast
      if renameOk fs1 destFilePath then
        (fsRename fs1 sourceFilePath destFilePath FKind.file,
         { action := str "Move File",
           result := str "File '" ++ sourceFilename ++ str "' moved to '" ++ destPath ++
             str "' successfully ✅",
           success := true })
      else
        (fs1, { action := str "Move File",
                result := str "Error moving file '" ++ sourceFilename ++ str "' to '" ++
                  destPath ++ str "': rename failed ❌",
                success := false })

/-!  ## Intent parser (`backend/utils/commandParser.js`)

The memory-operation and file-operation pattern tables, in source order.
The regexes carry the `i` flag; matching a lower-cased pattern against the
lower-cased input models this for the ASCII commands involved.  A pattern's
captured arguments are consumed only by the sub-executors, which the claims
treat through their result objects, so the embedding records which pattern
matched (its handler function name) and not the capture groups. -/

inductive ParsedIntent where
  | perror (msg : Str)
  | memoryOp (fn : Str)
  | fileOp (fn : Str)
  | shell (command : Str)
deriving DecidableEq

def memoryOpPatterns : List (Str × Rex) :=
  [(str "saveMemory", rseq [rstr (str "remember"), rwsP, rplus .dot, rwsP,
      rstr (str "is"), rwsP, rplus .dot]),
   (str "saveMemory", rseq [rstr (str "remember"), rwsP, rplus .dot]),
   (str "getMemory", rseq [rstr (str "recall"), rwsP, rplus .dot]),
   (str "getAllMemory", rseq [rstr (str "show"), rwsP, rstr (str "memory")]),
   (str "clearMemory", rseq [rstr (str "clear"), rwsP, rstr (str "memory")]),
   (str "searchMemory", rseq [rstr (str "search"), rwsP, rstr (str "memory"), rwsP, rplus .dot]),
   (str "getMemoryStats", rseq [rstr (str "memory"), rwsP, rstr (str "stats")]),
   (str "getCommandHistory", rseq [rstr (str "command"), rwsP, rstr (str "history")])]

def fileOpPatterns : List (Str × Rex) :=
  [(str "createFile", rseq [rstr (str "create"), rwsP, rstr (str "file"), rwsP, rplus .nws]),
   (str "createFile", rseq [rstr (str "create"), rwsP, rstr (str "a"), rwsP,
      rstr (str "file"), rwsP, rplus .nws]),
   (str "createDirectory", rseq [rstr (str "create"), rwsP, rstr (str "directory"), rwsP,
      rplus .nws]),
   (str "createDirectory", rseq [rstr (str "create"), rwsP, rstr (str "a"), rwsP,
      rstr (str "directory"), rwsP, rplus .nws]),
   (str "createDirectory", rseq [rstr (str "make"), rwsP, rstr (str "directory"), rwsP,
      rplus .nws]),
   (str "createDirectory", rseq [rstr (str "mkdir"), rwsP, rplus .nws]),
   (str "deleteFile", rseq [rstr (str "delete"), rwsP, rstr (str "file"), rwsP, rplus .nws]),
   (str "copyFile", rseq [rstr (str "copy"), rwsP, rstr (str "file"), rwsP, rplus .nws,
      rwsP, rstr (str "to"), rwsP, rplus .nws]),
   (str "moveFile", rseq [rstr (str "move"), rwsP, rstr (str "file"), rwsP, rplus .nws,
      rwsP, rstr (str "to"), rwsP, rplus .nws]),
   (str "listFiles", rseq [rstr (str "list"), rwsP, rstr (str "files")])]

/-- The `shellCommands` list used for the direct-shell check. -/
def shellCommandList : List Str :=
  [str "ls", str "pwd", str "cd", str "mkdir", str "touch", str "rm", str "cp", str "mv",
   str "ps", str "kill",
   str "nano", str "cat", str "grep", str "find", str "which", str "whoami", str "uname",
   str "df",
   str "free", str "uptime", str "ping", str "curl", str "wget"]

/-- The body of `parseCommand` for an actual string argument.  Both branches
of the source's direct-shell-command check construct the same shell intent
carrying the *original* input; the branch is kept for fidelity. -/
def parseCommandStr (input : Str) : ParsedIntent :=
  if input = [] then .perror (str "Invalid input: command must be a non-empty string")
  else
    match memoryOpPatterns.find? (fun p => rtest p.2 (toLowerStr input)) with
    | some p => .memoryOp p.1
    | none =>
      match fileOpPatterns.find? (fun p => rtest p.2 (toLowerStr input)) with
      | some p => .fileOp p.1
      | none =>
        if (trimmedLower input).takeWhile (fun c => c ≠ ' ') ∈ shellCommandList then
          .shell input
        else
          .shell input

/-- `parseCommand` from `commandParser.js`. -/
def parseCommand : Option Str → ParsedIntent
  | none => .perror (str "Invalid input: command must be a non-empty string")
  | some input => parseCommandStr input

/-!  ## Shell runner and command executor (`backend/utils/commandUtils.js`)

`executeShellCommand` takes the subprocess outcome (what the `exec` callback
would receive) as an explicit argument; its second result component records
whether the subprocess was spawned at all.  `executeCommand` is the second
(error-code) version of the source file; the memory and file sub-executor
results and the history write depend on external stores, so they enter as
oracle outcomes in `ExecBehavior`, where `Except.error` models a JavaScript
exception thrown by that step. -/

inductive NodeErrCode where
  | exitCode (n : Int)
  | errStr (s : Str)
deriving DecidableEq

structure ExecError where
  code : Option NodeErrCode
  signal : Option Str
  message : Str
deriving DecidableEq

structure ExecOutcome where
  error : Option ExecError
  stdout : Str
  stderr : Str
deriving DecidableEq

structure ShellOut where
  success : Bool
  output : Str
  blocked : Bool
  code : Option Str := none
deriving DecidableEq

/-- The blocked-command result text of `executeShellCommand`. -/
def blockedOutput (command : Str) (check : SafetyResult) : Str :=
  str "🚫 Command blocked for security: " ++ command ++ str "\nReason: " ++ check.reason ++
    (match check.suggestion with
     | some sg => str "\nSuggestion: " ++ sg
     | none => [])

/-- `executeShellCommand(command)`: the policy check, then outcome
classification.  The second component is `true` iff `exec` was invoked. -/
def executeShellCommand (command : Str) (o : ExecOutcome) : ShellOut × Bool :=
  if !(isCommandSafe (some command)).safe then
    ({ success := false,
       output := blockedOutput command (isCommandSafe (some command)), blocked := true },
     false)
  else
    match o.error with
    | some e =>
      if e.code = some (.errStr (str "ENOENT")) then
        ({ success := false,
           output := str "Command not found: " ++ command.takeWhile (fun c => c ≠ ' '),
           blocked := false, code := some (str "E_COMMAND_NOT_FOUND") }, true)
      else if e.code = some (.errStr (str "EACCES")) then
        ({ success := false, output := str "Permission denied: " ++ e.message,
           blocked := false, code := some (str "E_PERMISSION_DENIED") }, true)
      else if e.signal = some (str "SIGTERM") then
        ({ success := false, output := str "Command timed out after 10 seconds",
           blocked := false, code := some (str "E_COMMAND_TIMEOUT") }, true)
      else if e.code = some (.errStr (str "ENOTDIR")) then
        ({ success := false, output := str "Invalid directory: " ++ e.message,
           blocked := false, code := some (str "E_INVALID_DIRECTORY") }, true)
      else
        ({ success := false,
           output := if o.stderr = [] then e.message else o.stderr,
           blocked := false, code := some (str "E_COMMAND_FAILED") }, true)
    | none =>
      ({ success := true,
         output := if o.stdout = [] then str "Command executed successfully" else o.stdout,
         blocked := false, code := some (str "SUCCESS") }, true)

structure OpOutcome where
  action : Str
  result : Str
  success : Bool
deriving DecidableEq

/-- Oracle outcomes for the sub-component calls inside `executeCommand`.
`parserOk` models the `commandParser.parseCommand` call site: `Except.error`
is an exception escaping the parser (nothing between the outer `try` and
the inner ones converts it). -/
structure ExecBehavior where
  parserOk : Except Str Unit
  memoryOp : Except Str OpOutcome
  fileOp : Except Str OpOutcome
  history : Except Str Unit
  shell : Except Str ExecOutcome

structure ExecutionResult where
  input : Option Str
  action : Str
  result : Str
  success : Bool
  blocked : Bool := false
  code : Option Str := none
deriving DecidableEq

/-- An inner `try { ... } catch (error) { return ... }`. -/
def tryCatchE (x : Except Str ExecutionResult) (h : Str → ExecutionResult) :
    Except Str ExecutionResult :=
  match x with
  | .ok r => .ok r
  | .error e => .ok (h e)

/-- The body of `executeCommand` (everything inside the outer `try`). -/
def executeCommandBody (input : Option Str) (b : ExecBehavior) :
    Except Str ExecutionResult := do
  let _ ← b.parserOk
  match parseCommand input with
  | .perror msg =>
    pure { input := input, action := str "Parse Error", result := msg,
           success := false, code := some (str "E_PARSE_ERROR") }
  | .memoryOp _ =>
    tryCatchE (do
      let r ← b.memoryOp
      let _ ← b.history
      pure { input := input, action := r.action, result := r.result, success := r.success })
      (fun e =>
        { input := input, action := str "Memory Operation Error",
          result := str "Error executing memory operation: " ++ e,
          success := false, code := some (str "E_MEMORY_OPERATION_FAILED") })
  | .fileOp _ =>
    tryCatchE (do
      let r ← b.fileOp
      let _ ← b.history
      pure { input := input, action := r.action, result := r.result, success := r.success })
      (fun e =>
        { input := input, action := str "File Operation Error",
          result := str "Error executing file operation: " ++ e,
          success := false, code := some (str "E_FILE_OPERATION_FAILED") })
  | .shell cmd =>
    tryCatchE (do
      let o ← b.shell
      let r := (executeShellCommand cmd o).1
      let _ ← b.history
      pure { input := input, action := str "Shell Command", result := r.output,
             success := r.success, blocked := r.blocked })
      (fun e =>
        { input := input, action := str "Shell Command Error",
          result := str "Error executing shell command: " ++ e,
          success := false, code := some (str "E_SHELL_COMMAND_FAILED") })

/-- The result built by the outer `catch`. -/
def systemErrorResult (input : Option Str) (e : Str) : ExecutionResult :=
  { input := input, action := str "System Error",
    result := str "An unexpected error occurred: " ++ e,
    success := false, code := some (str "E_SYSTEM_ERROR") }

/-- `executeCommand` after the outer `try`/`catch`, still as an `Except` so
"never throws" is expressible. -/
def executeCommandE (input : Option Str) (b : ExecBehavior) :
    Except Str ExecutionResult :=
  match executeCommandBody input b with
  | .ok r => .ok r
  | .error e => .ok (systemErrorResult input e)

/-- `executeCommand`: the value the caller receives. -/
def executeCommand (input : Option Str) (b : ExecBehavior) : ExecutionResult :=
  match executeCommandE input b with
  | .ok r => r
  | .error _ => systemErrorResult input (str "unreachable")

/-- The first whitespace-delimited token of the trimmed, lower-cased command
(the source's `split(' ')[0]` agrees with it whenever the token is a plain
allowlist word). -/
def wsFirstToken (s : Str) : Str := (trimmedLower s).takeWhile (fun c => !isWs c)

/-- A filesystem in which `a.txt` exists as a file directly under the sandbox
root and `~/etc/passwd` does not exist. -/
def escapeDemoFS : FS :=
  [([str "home"], FKind.dir),
   ([str "home", str "user"], FKind.dir),
   ([str "home", str "user", str "Desktop"], FKind.dir),
   (projectRootSegs, FKind.dir),
   (projectRootSegs ++ [str "a.txt"], FKind.file)]

/-!  ## Supporting lemmas about `isCommandSafe` -/

/-- On the accepting branch, every rejecting check must have come out false. -/
theorem checks_pass_of_safe (s : Str) (h : (isCommandSafe (some s)).safe = true) :
    literalHit s = false ∧ patternHit s = false ∧
    chainingHit (trimmedLower s) = false ∧ substitutionHit (trimmedLower s) = false := by
  have h' : (isCommandSafeStr s).safe = true := h
  unfold isCommandSafeStr at h'
  split at h'
  · simp [invalidResult] at h'
  · split at h'
    · simp [literalBlockResult] at h'
    · next hfind =>
      split at h'
      · simp [patternBlockResult] at h'
      · next hpfind =>
        split at h'
        · split at h'
          · simp [chainingBlockResult] at h'
          · split at h'
            · simp [substitutionBlockResult] at h'
            · next hchain hsub =>
              refine ⟨?_, ?_, by simpa using hchain, by simpa using hsub⟩
              · exact List.any_eq_false.mpr (List.find?_eq_none.mp hfind)
              · exact List.any_eq_false.mpr (List.find?_eq_none.mp hpfind)
        · simp [allowlistBlockResult] at h'

/-- When the denylists miss and the base token is not allowlisted, the
allowlist branch is taken. -/
theorem isCommandSafe_allowlist_branch (s : Str) (hs : s ≠ [])
    (hlit : literalHit s = false) (hpat : patternHit s = false)
    (hbase : baseCommand s ∉ allowedCommands) :
    isCommandSafe (some s) = allowlistBlockResult (baseCommand s) := by
  show isCommandSafeStr s = _
  unfold isCommandSafeStr
  rw [if_neg hs]
  rw [List.find?_eq_none.mpr (List.any_eq_false.mp hlit)]
  rw [List.find?_eq_none.mpr (List.any_eq_false.mp hpat)]
  simp only []
  rw [if_neg hbase]

theorem takeWhile_notWs_of_noWs (t : Str)
    (h : (t.takeWhile (fun c => c ≠ ' ')).all (fun c => !isWs c) = true) :
    t.takeWhile (fun c => !isWs c) = t.takeWhile (fun c => c ≠ ' ') := by
  induction t with
  | nil => rfl
  | cons c t' ih =>
    by_cases hc : c = ' '
    · subst hc
      have hws : isWs ' ' = true := by decide
      simp [List.takeWhile_cons, hws]
    · rw [List.takeWhile_cons, if_pos (by simpa using hc)] at h
      rw [List.all_cons, Bool.and_eq_true] at h
      have hcw : (!isWs c) = true := h.1
      have ht' : (t'.takeWhile (fun c => c ≠ ' ')).all (fun c => !isWs c) = true := h.2
      rw [List.takeWhile_cons, List.takeWhile_cons, if_pos hcw, if_pos (by simpa using hc),
        ih ht']

/-- Allowlist entries contain no whitespace, so whenever the source's base
token (split on a single space) is allowlisted it coincides with the first
whitespace-delimited token. -/
theorem wsFirstToken_eq_baseCommand_of_mem (s : Str)
    (h : baseCommand s ∈ allowedCommands) : wsFirstToken s = baseCommand s := by
  have hall : allowedCommands.all (fun a => a.all (fun c => !isWs c)) = true := by decide
  have hnw : (baseCommand s).all (fun c => !isWs c) = true :=
    List.all_eq_true.mp hall _ h
  exact takeWhile_notWs_of_noWs (trimmedLower s) hnw

/-- The five shell operators the policy refuses. -/
def chainSubOps : List Str := [str "&&", str "||", str ";", str "`", str "$("]

/-!  ## Claims -/

/-- Claim C10: every branch of `isCommandSafe` returns `blocked` equal to the
negation of `safe`. -/
theorem isCommandSafe_blocked_iff_not_safe (c : Option Str) :
    (isCommandSafe c).blocked = !(isCommandSafe c).safe := by
  cases c with
  | none => rfl
  | some s =>
    show (isCommandSafeStr s).blocked = !(isCommandSafeStr s).safe
    unfold isCommandSafeStr
    repeat' split
    all_goals rfl

/-- Claim C2: there is a path whose resolution against the sandbox root lies
outside the root, yet `isPathSafe` judges it safe, because the containment
test is a string-prefix comparison of the rendered paths: a sibling directory
extending the root's final component passes it. -/
theorem isPathSafe_prefix_collision :
    ∃ p : Str, (isPathSafe (some p)).safe = true ∧
      resolveSegs projectRootSegs p ≠ projectRootSegs ∧
      projectRootSegs.isPrefixOf (resolveSegs projectRootSegs p) = false :=
  ⟨str "../VOICE-CMD-evil/x", by decide⟩

/-- Claim C1 (failing input): with `a.txt` present in the sandbox root and
`~/etc/passwd` absent, `moveFile("a.txt", "../../etc/passwd")` resolves the
destination outside the root, performs the rename there, and reports
`success: true` — no confinement check runs before the mutation. -/
theorem moveFile_escapes_root :
    fsLookup escapeDemoFS (projectRootSegs ++ [str "a.txt"]) = some FKind.file ∧
    projectRootSegs.isPrefixOf (resolveSegs workingDirSegs (str "../../etc/passwd")) = false ∧
    (moveFile escapeDemoFS (str "a.txt") (str "../../etc/passwd")).2.success = true ∧
    fsLookup (moveFile escapeDemoFS (str "a.txt") (str "../../etc/passwd")).1
      (resolveSegs workingDirSegs (str "../../etc/passwd")) = some FKind.file ∧
    fsLookup (moveFile escapeDemoFS (str "a.txt") (str "../../etc/passwd")).1
      (projectRootSegs ++ [str "a.txt"]) = none := by
  decide

/-- Claim C4 (counterexample): `"chmod  777  /"` (two spaces) matches the
regex denylist, but its upper-cased variant hits neither denylist — the
regexes are applied to the original string without an `i` flag — and is
accepted, so denylist blocking is not case-robust. -/
theorem denylist_not_case_robust :
    patternHit (str "chmod  777  /") = true ∧
    (isCommandSafe (some (str "chmod  777  /"))).safe = false ∧
    trimmedLower (str "CHMOD  777  /") = trimmedLower (str "chmod  777  /") ∧
    (isCommandSafe (some (str "CHMOD  777  /"))).safe = true := by
  decide

/-- Claim C6 (counterexample): the empty string hits no denylist entry and
its first token is not allowlisted, yet the result carries no suggestion —
it takes the invalid-format branch. -/
theorem allowlist_suggestion_missing_on_empty :
    literalHit [] = false ∧ patternHit [] = false ∧
    wsFirstToken [] ∉ allowedCommands ∧
    (isCommandSafe (some [])).safe = false ∧
    (isCommandSafe (some [])).suggestion = none := by
  decide

/-- Claim C7 (counterexample): the empty string is a string yet parses to the
error intent, and an unmatched input parses to a shell intent carrying the
*original* input, not the trimmed one. -/
theorem parseCommand_error_and_untrimmed :
    parseCommand (some []) =
      ParsedIntent.perror (str "Invalid input: command must be a non-empty string") ∧
    parseCommand (some (str " ls ")) = ParsedIntent.shell (str " ls ") ∧
    trim (str " ls ") ≠ str " ls " := by
  decide

/-- Claim C4 (amended): a command containing a literal-denylist member — in
any letter case, anywhere in the string, whatever the surrounding whitespace
— is judged unsafe; and a command matching a regex-denylist pattern *as
written* (the regexes are case-sensitive and run on the untrimmed string) is
judged unsafe. -/
theorem denylist_blocking :
    (∀ (s l : Str), l ∈ blockedCommands →
      containsSub (toLowerStr l) (toLowerStr s) = true →
      (isCommandSafe (some s)).safe = false) ∧
    (∀ s : Str, patternHit s = true → (isCommandSafe (some s)).safe = false) := by
  constructor
  · intro s l hmem hcont
    cases hsafe : (isCommandSafe (some s)).safe with
    | false => rfl
    | true =>
      exfalso
      obtain ⟨hlit, -, -, -⟩ := checks_pass_of_safe s hsafe
      have hedges : blockedCommands.all
          (fun x => edgeOk (toLowerStr x) && edgeOk (toLowerStr x).reverse) = true := by
        decide
      have hedge := Bool.and_eq_true _ _ ▸ List.all_eq_true.mp hedges l hmem
      have hinf : toLowerStr l <:+: toLowerStr s := (containsSub_iff _ _).mp hcont
      have htr : toLowerStr l <:+: trim (toLowerStr s) :=
        infix_trim _ _ hinf hedge.1 hedge.2
      rw [trim_toLower] at htr
      have hc : containsSub (toLowerStr l) (trimmedLower s) = true :=
        (containsSub_iff _ _).mpr htr
      have : literalHit s = true := List.any_eq_true.mpr ⟨l, hmem, hc⟩
      rw [this] at hlit
      exact Bool.true_eq_false.mp hlit
  · intro s hpat
    cases hsafe : (isCommandSafe (some s)).safe with
    | false => rfl
    | true =>
      exfalso
      obtain ⟨-, hp, -, -⟩ := checks_pass_of_safe s hsafe
      rw [hpat] at hp
      exact Bool.true_eq_false.mp hp

/-- Claim C4 (amended, witness): `"RM -RF /"` contains the literal `rm -rf`
case-insensitively and is blocked; `"kill -9 55"` matches
`/kill\s+-9\s+[0-9]+/` and is blocked. -/
theorem denylist_blocking_witness :
    (isCommandSafe (some (str "RM -RF /"))).safe = false ∧
    (isCommandSafe (some (str "kill -9 55"))).safe = false :=
  ⟨denylist_blocking.1 (str "RM -RF /") (str "rm -rf") (by decide) (by decide),
   denylist_blocking.2 (str "kill -9 55") (by decide)⟩

/-- Claim C5: a command containing a chaining operator or substitution
syntax anywhere is judged unsafe, whatever its base token: every accepting
path of `isCommandSafe` requires the chaining and substitution checks to
miss, and the operator's occurrence survives trimming and lower-casing. -/
theorem chaining_substitution_blocked (s op : Str) (hmem : op ∈ chainSubOps)
    (hcont : containsSub op s = true) :
    (isCommandSafe (some s)).safe = false := by
  cases hsafe : (isCommandSafe (some s)).safe with
  | false => rfl
  | true =>
    exfalso
    obtain ⟨-, -, hchain, hsub⟩ := checks_pass_of_safe s hsafe
    have hfixed : chainSubOps.all
        (fun o => decide (toLowerStr o = o) && (edgeOk o && edgeOk o.reverse)) = true := by
      decide
    have hf := Bool.and_eq_true _ _ ▸ List.all_eq_true.mp hfixed op hmem
    have hlow : toLowerStr op = op := of_decide_eq_true hf.1
    have hedge := Bool.and_eq_true _ _ ▸ hf.2
    have hinf : op <:+: s := (containsSub_iff _ _).mp hcont
    have hinf2 : op <:+: toLowerStr s := by
      have := hinf.map Char.toLower
      rwa [show List.map Char.toLower op = toLowerStr op from rfl, hlow] at this
    have htr : op <:+: trim (toLowerStr s) := infix_trim _ _ hinf2 hedge.1 hedge.2
    rw [trim_toLower] at htr
    have hc : containsSub op (trimmedLower s) = true := (containsSub_iff _ _).mpr htr
    have hmem' : op = str "&&" ∨ op = str "||" ∨ op = str ";" ∨ op = str "`" ∨
        op = str "$(" := by
      simpa [chainSubOps] using hmem
    rcases hmem' with rfl | rfl | rfl | rfl | rfl
    · simp [chainingHit, hc] at hchain
    · simp [chainingHit, hc] at hchain
    · simp [chainingHit, hc] at hchain
    · simp [substitutionHit, hc] at hsub
    · simp [substitutionHit, hc] at hsub

/-- Claim C5 (witness): `"ls && rm -rf /"` has an allowlisted base token but
contains `&&` and is blocked. -/
theorem chaining_substitution_blocked_witness :
    (isCommandSafe (some (str "ls && rm -rf /"))).safe = false :=
  chaining_substitution_blocked (str "ls && rm -rf /") (str "&&") (by decide) (by decide)

/-- Claim C6 (amended): every *nonempty* string that hits neither denylist
and whose first whitespace-delimited token is not allowlisted is rejected
with the fixed suggestion text, which names an allowed command (`mkdir`).
(The empty string instead takes the invalid-format branch, which carries no
suggestion.) -/
theorem allowlist_miss_suggestion (s : Str) (hs : s ≠ [])
    (hlit : literalHit s = false) (hpat : patternHit s = false)
    (htok : wsFirstToken s ∉ allowedCommands) :
    (isCommandSafe (some s)).safe = false ∧
    (isCommandSafe (some s)).suggestion = some suggestionText ∧
    str "mkdir" ∈ allowedCommands ∧ containsSub (str "mkdir") suggestionText = true := by
  have hbase : baseCommand s ∉ allowedCommands := by
    intro hin
    exact htok (wsFirstToken_eq_baseCommand_of_mem s hin ▸ hin)
  rw [isCommandSafe_allowlist_branch s hs hlit hpat hbase]
  exact ⟨rfl, rfl, by decide, by decide⟩

/-- Claim C6 (amended, witness): `"frobnicate now"` hits no denylist, its
first token is not allowlisted, and it is rejected with the suggestion. -/
theorem allowlist_miss_suggestion_witness :
    (isCommandSafe (some (str "frobnicate now"))).safe = false ∧
    (isCommandSafe (some (str "frobnicate now"))).suggestion = some suggestionText ∧
    str "mkdir" ∈ allowedCommands ∧ containsSub (str "mkdir") suggestionText = true :=
  allowlist_miss_suggestion (str "frobnicate now") (by decide) (by decide) (by decide)
    (by decide)

/-- An `exec` error with `code = 'ENOTDIR'`. -/
def enotdirError : ExecError :=
  { code := some (.errStr (str "ENOTDIR")), signal := none, message := str "spawn ENOTDIR" }

/-- The subprocess outcome carrying `enotdirError` with nonempty stderr. -/
def enotdirOutcome : ExecOutcome :=
  { error := some enotdirError, stdout := [], stderr := str "boom" }

/-- Claim C9 (counterexample): a policy-approved command whose `exec` error
carries `code = 'ENOTDIR'` is neither a timeout, a missing binary, nor a
permission failure, yet it is classified `E_INVALID_DIRECTORY`, not
`E_COMMAND_FAILED`, and its result text is not stderr. -/
theorem shell_runner_enotdir_classification :
    (isCommandSafe (some (str "ls"))).safe = true ∧
    enotdirOutcome.error = some enotdirError ∧
    enotdirError.code ≠ some (.errStr (str "ENOENT")) ∧
    enotdirError.code ≠ some (.errStr (str "EACCES")) ∧
    enotdirError.signal ≠ some (str "SIGTERM") ∧
    (executeShellCommand (str "ls") enotdirOutcome).1.code = some (str "E_INVALID_DIRECTORY") ∧
    (executeShellCommand (str "ls") enotdirOutcome).1.code ≠ some (str "E_COMMAND_FAILED") ∧
    (executeShellCommand (str "ls") enotdirOutcome).1.output ≠ enotdirOutcome.stderr := by
  decide

/-- Claim C7 (amended): `parseCommand` yields the error intent exactly for
null/non-string input and for the empty string; every other string that
matches no memory- or file-operation pattern yields the shell intent
carrying the *original* (untrimmed) input. -/
theorem parseCommand_classification :
    (∀ input : Option Str,
      (∃ m, parseCommand input = ParsedIntent.perror m) ↔
        (input = none ∨ input = some [])) ∧
    (∀ s : Str, s ≠ [] →
      memoryOpPatterns.all (fun p => !rtest p.2 (toLowerStr s)) = true →
      fileOpPatterns.all (fun p => !rtest p.2 (toLowerStr s)) = true →
      parseCommand (some s) = ParsedIntent.shell s) := by
  constructor
  · intro input
    cases input with
    | none =>
      exact ⟨fun _ => Or.inl rfl, fun _ => ⟨_, rfl⟩⟩
    | some s =>
      by_cases hs : s = []
      · subst hs
        exact ⟨fun _ => Or.inr rfl, fun _ => ⟨_, rfl⟩⟩
      · constructor
        · rintro ⟨m, hm⟩
          exfalso
          have hm' : parseCommandStr s = ParsedIntent.perror m := hm
          unfold parseCommandStr at hm'
          rw [if_neg hs] at hm'
          split at hm'
          · exact ParsedIntent.noConfusion hm'
          · split at hm'
            · exact ParsedIntent.noConfusion hm'
            · split at hm'
              · exact ParsedIntent.noConfusion hm'
              · exact ParsedIntent.noConfusion hm'
        · rintro (h | h)
          · exact Option.noConfusion h
          · exact absurd (Option.some.inj h) hs
  · intro s hs hmem hfile
    show parseCommandStr s = ParsedIntent.shell s
    unfold parseCommandStr
    rw [if_neg hs]
    rw [List.find?_eq_none.mpr (fun p hp => by
      have := List.all_eq_true.mp hmem p hp
      simp at this
      simp [this])]
    rw [List.find?_eq_none.mpr (fun p hp => by
      have := List.all_eq_true.mp hfile p hp
      simp at this
      simp [this])]
    exact ite_self (ParsedIntent.shell s)

/-- Claim C7 (amended, witness): `"hello there"` (no pattern matches) parses
to the shell intent with the original text, and the error-iff
characterisation instantiates at it. -/
theorem parseCommand_classification_witness :
    parseCommand (some (str "hello there")) = ParsedIntent.shell (str "hello there") ∧
    ((∃ m, parseCommand (some (str "hello there")) = ParsedIntent.perror m) ↔
      (some (str "hello there") = none ∨ some (str "hello there") = some [])) :=
  ⟨parseCommand_classification.2 (str "hello there") (by decide) (by decide) (by decide),
   parseCommand_classification.1 (some (str "hello there"))⟩

/-- When policy rejects, `executeShellCommand` resolves the blocked result
(with the subprocess-spawned flag `false`). -/
theorem executeShellCommand_blockedBranch (s : Str) (o : ExecOutcome)
    (hverdict : (isCommandSafe (some s)).safe = false) :
    executeShellCommand s o =
      ({ success := false, output := blockedOutput s (isCommandSafe (some s)),
         blocked := true }, false) := by
  unfold executeShellCommand
  rw [hverdict]
  rfl

theorem blockedOutput_contains_blocked (s : Str) (check : SafetyResult) :
    containsSub (str "blocked") (blockedOutput s check) = true := by
  refine (containsSub_iff _ _).mpr ?_
  unfold blockedOutput
  have h0 : str "blocked" <:+: str "🚫 Command blocked for security: " := by
    refine (containsSub_iff _ _).mp (by decide)
  simp only [List.append_assoc]
  exact infix_append_left _ h0

theorem blockedOutput_contains_reason (s : Str) (check : SafetyResult) :
    containsSub check.reason (blockedOutput s check) = true := by
  refine (containsSub_iff _ _).mpr ?_
  unfold blockedOutput
  simp only [List.append_assoc]
  refine infix_append_right _ ?_
  refine infix_append_right _ ?_
  refine infix_append_right _ ?_
  exact infix_append_left _ (List.infix_refl _)

/-- Claim C3: for an input classified as a shell command, an unsafe policy
verdict short-circuits `executeShellCommand`: the subprocess is never
spawned, the result is a failure marked `blocked`, and the result text says
"blocked" and carries the policy's reason. -/
theorem shell_policy_short_circuit (s : Str) (o : ExecOutcome)
    (_hparse : parseCommand (some s) = ParsedIntent.shell s)
    (hverdict : (isCommandSafe (some s)).safe = false) :
    (executeShellCommand s o).2 = false ∧
    (executeShellCommand s o).1.success = false ∧
    (executeShellCommand s o).1.blocked = true ∧
    containsSub (str "blocked") (executeShellCommand s o).1.output = true ∧
    containsSub ((isCommandSafe (some s)).reason) (executeShellCommand s o).1.output = true := by
  rw [executeShellCommand_blockedBranch s o hverdict]
  exact ⟨rfl, rfl, rfl, blockedOutput_contains_blocked s _,
    blockedOutput_contains_reason s _⟩

/-- Claim C3 (witness): `"rm -rf /"` parses to a shell intent, is judged
unsafe, and is short-circuited to a blocked result without spawning. -/
theorem shell_policy_short_circuit_witness :
    (executeShellCommand (str "rm -rf /") ⟨none, [], []⟩).2 = false ∧
    (executeShellCommand (str "rm -rf /") ⟨none, [], []⟩).1.success = false ∧
    (executeShellCommand (str "rm -rf /") ⟨none, [], []⟩).1.blocked = true ∧
    containsSub (str "blocked")
      (executeShellCommand (str "rm -rf /") ⟨none, [], []⟩).1.output = true ∧
    containsSub ((isCommandSafe (some (str "rm -rf /"))).reason)
      (executeShellCommand (str "rm -rf /") ⟨none, [], []⟩).1.output = true :=
  shell_policy_short_circuit (str "rm -rf /") ⟨none, [], []⟩ (by decide) (by decide)

theorem tryCatchE_isOk (x : Except Str ExecutionResult) (h : Str → ExecutionResult) :
    ∃ r, tryCatchE x (fun e => h e) = Except.ok r := by
  cases x with
  | ok r => exact ⟨r, rfl⟩
  | error e => exact ⟨h e, rfl⟩

/-- Claim C8: the executor never throws — for every input and every
sub-component behaviour (parser, memory op, file op, history write, shell
runner, each allowed to raise), `executeCommandE` is an `ok` value; the only
exception that can escape the inner handlers is one thrown at the parser
call site; and such an exception is converted at the executor boundary into
a `success: false`, `E_SYSTEM_ERROR` result. -/
theorem executeCommand_never_throws (input : Option Str) (b : ExecBehavior) :
    (∃ r, executeCommandE input b = Except.ok r) ∧
    (∀ e, executeCommandBody input b = Except.error e → b.parserOk = Except.error e) ∧
    (∀ e, executeCommandBody input b = Except.error e →
      (executeCommand input b).success = false ∧
      (executeCommand input b).code = some (str "E_SYSTEM_ERROR")) := by
  refine ⟨?_, ?_, ?_⟩
  · cases hbody : executeCommandBody input b with
    | ok r => exact ⟨r, by simp [executeCommandE, hbody]⟩
    | error e => exact ⟨systemErrorResult input e, by simp [executeCommandE, hbody]⟩
  · intro e he
    unfold executeCommandBody at he
    cases hp : b.parserOk with
    | error e' =>
      rw [hp] at he
      simp only [Bind.bind, Except.bind] at he
      injection he with h
      rw [h]
    | ok u =>
      exfalso
      rw [hp] at he
      simp only [Bind.bind, Except.bind] at he
      split at he
      · simp only [Pure.pure, Except.pure] at he
        exact Except.noConfusion he
      · obtain ⟨r, hr⟩ := tryCatchE_isOk _ _
        rw [hr] at he
        exact Except.noConfusion he
      · obtain ⟨r, hr⟩ := tryCatchE_isOk _ _
        rw [hr] at he
        exact Except.noConfusion he
      · obtain ⟨r, hr⟩ := tryCatchE_isOk _ _
        rw [hr] at he
        exact Except.noConfusion he
  · intro e he
    have : executeCommand input b = systemErrorResult input e := by
      unfold executeCommand executeCommandE
      rw [he]
    rw [this]
    exact ⟨rfl, rfl⟩

/-- A behaviour in which the parser call site raises. -/
def boomBehavior : ExecBehavior :=
  { parserOk := .error (str "boom"), memoryOp := .ok ⟨[], [], true⟩,
    fileOp := .ok ⟨[], [], true⟩, history := .ok (), shell := .ok ⟨none, [], []⟩ }

/-- Claim C8 (witness): with the parser call raising, the executor still
returns a value, a `success: false` result coded `E_SYSTEM_ERROR`. -/
theorem executeCommand_never_throws_witness :
    (∃ r, executeCommandE (some (str "ls")) boomBehavior = Except.ok r) ∧
    boomBehavior.parserOk = Except.error (str "boom") ∧
    (executeCommand (some (str "ls")) boomBehavior).success = false ∧
    (executeCommand (some (str "ls")) boomBehavior).code = some (str "E_SYSTEM_ERROR") := by
  obtain ⟨h1, h2, h3⟩ := executeCommand_never_throws (some (str "ls")) boomBehavior
  have hbody : executeCommandBody (some (str "ls")) boomBehavior =
      Except.error (str "boom") := rfl
  exact ⟨h1, h2 _ hbody, (h3 _ hbody).1, (h3 _ hbody).2⟩

/-- Claim C9 (amended): for a policy-approved command the runner spawns the
subprocess and classifies the outcome: `ENOENT` ↦ `E_COMMAND_NOT_FOUND`;
`EACCES` ↦ `E_PERMISSION_DENIED`; a `SIGTERM`-killed process with no error
code (the timeout shape) ↦ `E_COMMAND_TIMEOUT`; an error that is none of
`ENOENT`/`EACCES`/`ENOTDIR` and not `SIGTERM`-signalled ↦ `E_COMMAND_FAILED`
with stderr (or the error message if stderr is empty) as the text; `ENOTDIR`
↦ `E_INVALID_DIRECTORY`; and on success the text is stdout, or a generic
message if stdout is empty. -/
theorem shell_runner_classification (cmd : Str) (o : ExecOutcome)
    (hsafe : (isCommandSafe (some cmd)).safe = true) :
    (executeShellCommand cmd o).2 = true ∧
    (∀ e, o.error = some e → e.code = some (.errStr (str "ENOENT")) →
      (executeShellCommand cmd o).1.code = some (str "E_COMMAND_NOT_FOUND") ∧
      (executeShellCommand cmd o).1.success = false) ∧
    (∀ e, o.error = some e → e.code = some (.errStr (str "EACCES")) →
      (executeShellCommand cmd o).1.code = some (str "E_PERMISSION_DENIED") ∧
      (executeShellCommand cmd o).1.success = false) ∧
    (∀ e, o.error = some e → e.code = none → e.signal = some (str "SIGTERM") →
      (executeShellCommand cmd o).1.code = some (str "E_COMMAND_TIMEOUT") ∧
      (executeShellCommand cmd o).1.success = false) ∧
    (∀ e, o.error = some e → e.code ≠ some (.errStr (str "ENOENT")) →
      e.code ≠ some (.errStr (str "EACCES")) → e.signal ≠ some (str "SIGTERM") →
      e.code ≠ some (.errStr (str "ENOTDIR")) →
      (executeShellCommand cmd o).1.code = some (str "E_COMMAND_FAILED") ∧
      (executeShellCommand cmd o).1.success = false ∧
      (executeShellCommand cmd o).1.output =
        (if o.stderr = [] then e.message else o.stderr)) ∧
    (∀ e, o.error = some e → e.code = some (.errStr (str "ENOTDIR")) →
      e.signal ≠ some (str "SIGTERM") →
      (executeShellCommand cmd o).1.code = some (str "E_INVALID_DIRECTORY") ∧
      (executeShellCommand cmd o).1.success = false) ∧
    (o.error = none →
      (executeShellCommand cmd o).1.success = true ∧
      (executeShellCommand cmd o).1.output =
        (if o.stdout = [] then str "Command executed successfully" else o.stdout)) := by
  have d1 : ¬ (str "EACCES" = str "ENOENT") := by decide
  have d2 : ¬ (str "ENOTDIR" = str "ENOENT") := by decide
  have d3 : ¬ (str "ENOTDIR" = str "EACCES") := by decide
  unfold executeShellCommand
  rw [hsafe]
  simp only [Bool.not_true, Bool.false_eq_true, if_false]
  refine ⟨?_, ?_, ?_, ?_, ?_, ?_, ?_⟩
  · cases ho : o.error with
    | none => rfl
    | some e =>
      repeat' split
      all_goals rfl
  · intro e he hc
    rw [he]
    simp [hc]
  · intro e he hc
    rw [he]
    simp [hc, d1]
  · intro e he hc hsig
    rw [he]
    simp [hc, hsig]
  · intro e he hc1 hc2 hsig hc3
    rw [he]
    simp [hc1, hc2, hsig, hc3]
  · intro e he hc hsig
    rw [he]
    simp [hc, hsig, d2, d3]
  · intro he
    rw [he]
    simp

/-- Claim C9 (amended, witness): each classification instantiated for the
approved command `"ls"` on a concrete outcome of the matching shape. -/
theorem shell_runner_classification_witness :
    (executeShellCommand (str "ls")
        ⟨some ⟨some (.errStr (str "ENOENT")), none, str "m"⟩, [], []⟩).1.code =
      some (str "E_COMMAND_NOT_FOUND") ∧
    (executeShellCommand (str "ls")
        ⟨some ⟨some (.errStr (str "EACCES")), none, str "m"⟩, [], []⟩).1.code =
      some (str "E_PERMISSION_DENIED") ∧
    (executeShellCommand (str "ls")
        ⟨some ⟨none, some (str "SIGTERM"), str "m"⟩, [], []⟩).1.code =
      some (str "E_COMMAND_TIMEOUT") ∧
    (executeShellCommand (str "ls")
        ⟨some ⟨some (.exitCode 2), none, str "m"⟩, [], str "oops"⟩).1.output = str "oops" ∧
    (executeShellCommand (str "ls")
        ⟨some ⟨some (.exitCode 2), none, str "m"⟩, [], str "oops"⟩).1.code =
      some (str "E_COMMAND_FAILED") ∧
    (executeShellCommand (str "ls")
        ⟨some ⟨some (.errStr (str "ENOTDIR")), none, str "m"⟩, [], []⟩).1.code =
      some (str "E_INVALID_DIRECTORY") ∧
    (executeShellCommand (str "ls") ⟨none, str "out", []⟩).1.output = str "out" ∧
    (executeShellCommand (str "ls") ⟨none, [], []⟩).1.output =
      str "Command executed successfully" := by
  have hsafe : (isCommandSafe (some (str "ls"))).safe = true := by decide
  refine ⟨?_, ?_, ?_, ?_, ?_, ?_, ?_, ?_⟩
  · exact ((shell_runner_classification (str "ls") _ hsafe).2.1 _ rfl (by decide)).1
  · exact ((shell_runner_classification (str "ls") _ hsafe).2.2.1 _ rfl (by decide)).1
  · exact ((shell_runner_classification (str "ls") _ hsafe).2.2.2.1 _ rfl (by decide)
      (by decide)).1
  · exact ((shell_runner_classification (str "ls") _ hsafe).2.2.2.2.1 _ rfl (by decide)
      (by decide) (by decide) (by decide)).2.2
  · exact ((shell_runner_classification (str "ls") _ hsafe).2.2.2.2.1 _ rfl (by decide)
      (by decide) (by decide) (by decide)).1
  · exact ((shell_runner_classification (str "ls") _ hsafe).2.2.2.2.2.1 _ rfl (by decide)
      (by decide)).1
  · exact ((shell_runner_classification (str "ls") _ hsafe).2.2.2.2.2.2 rfl).2
  · exact ((shell_runner_classification (str "ls") _ hsafe).2.2.2.2.2.2 rfl).2

end VoiceCmd
